import Mathlib

/-!
Shallow embedding of the identifier-resolution core of the plpgsql-lsp
repository, together with theorems settling the frozen claims C1–C10.

Embedded sources:
* `src/server/src/workspace/goToDefinition.ts` — statement extraction and
  workspace definition loading,
* `src/unnamed/part_001` — the typed AST shapes of the external SQL parser
  and `getStmtements`,
* `src/unnamed/part_002` — the hover service,
* `src/unnamed/part_000` — the protocol handlers (in particular `onDidClose`).

Code of the repository that the claims depend on but that is not among the
given source files (the Workspace Definitions Index, the Identifier Candidate
Generator, the Definitions Manager's resolve and update operations, and the
trigger/index extractors) is modelled from the specification; every such
definition carries a doc comment starting with `Modelled from the spec:`.
-/

namespace PlpgsqlLsp

/-! ## Protocol data types (vscode-languageserver)

Only the fields the embedded code touches are modelled.  `LocationLink.create`
mirrors the library factory as invoked in `goToDefinition.ts`: all call sites
pass exactly three arguments (target uri, target range, target selection
range), so the optional `originSelectionRange` parameter is left absent.
-/

structure Position where
  line : Nat
  character : Nat
deriving DecidableEq

def Position.create (line character : Nat) : Position :=
  { line, character }

structure Range where
  start : Position
  finish : Position
deriving DecidableEq

def Range.create (start finish : Position) : Range :=
  { start, finish }

structure LocationLink where
  targetUri : String
  targetRange : Range
  targetSelectionRange : Range
  originSelectionRange : Option Range
deriving DecidableEq

/-- The three-argument call form `LocationLink.create(uri, range, range)` used
throughout `goToDefinition.ts`; the optional fourth argument
(`originSelectionRange`) is not passed, so it is `undefined` (`none`). -/
def LocationLink.create (targetUri : String) (targetRange : Range)
    (targetSelectionRange : Range) : LocationLink :=
  { targetUri, targetRange, targetSelectionRange, originSelectionRange := none }

/-- Alias: `DefinitionLink` is an alias of `LocationLink` in the protocol library. -/
abbrev DefinitionLink := LocationLink

/-- A file identity (URI-like string), `type Resource = string` in the source. -/
abbrev Resource := String

/-! ## Parser AST (src/unnamed/part_001)

Direct transcription of the TypeScript interfaces: a field marked `?` in the
interface becomes an `Option`, all other fields are plain.
-/

structure CreateStmtRelation where
  schemaname : Option String
  relname : String
  location : Nat
deriving DecidableEq

structure CreateStmt where
  relation : CreateStmtRelation
deriving DecidableEq

structure ViewStmtRelation where
  schemaname : Option String
  relname : String
  location : Nat
deriving DecidableEq

structure ViewStmt where
  view : ViewStmtRelation
deriving DecidableEq

structure CompositeTypeStmtTypevar where
  schemaname : Option String
  relname : String
  relpersistence : String
  location : Nat
deriving DecidableEq

structure CompositeTypeStmt where
  typevar : CompositeTypeStmtTypevar
deriving DecidableEq

structure FuncNameString where
  str : String
deriving DecidableEq

structure FuncName where
  String : FuncNameString
deriving DecidableEq

structure CreateFunctionStmtReturnType where
  location : Nat
deriving DecidableEq

structure CreateFunctionStmt where
  is_procedure : Option Bool
  replace : Bool
  funcname : List FuncName
  returnType : CreateFunctionStmtReturnType
deriving DecidableEq

structure CreateTrigStmtRelation where
  relname : String
  inh : Bool
  relpersistence : String
deriving DecidableEq

structure CreateTrigStmt where
  trigname : String
  relation : CreateTrigStmtRelation
  funcname : List FuncName
  row : Bool
  events : Int
deriving DecidableEq

structure IndexStmt where
  idxname : String
deriving DecidableEq

structure StatementItem where
  CreateStmt : Option CreateStmt
  ViewStmt : Option ViewStmt
  CompositeTypeStmt : Option CompositeTypeStmt
  CreateFunctionStmt : Option CreateFunctionStmt
  CreateTrigStmt : Option CreateTrigStmt
  IndexStmt : Option IndexStmt
deriving DecidableEq

structure Statement where
  stmt : StatementItem
  stmt_location : Option Nat
  stmt_len : Nat
deriving DecidableEq

/-! ## Statement extraction (src/server/src/workspace/goToDefinition.ts) -/

/-- Transcription of the source alias `Candidate` (definition string plus definition link). -/
structure Candidate where
  definition : String
  definitionLink : DefinitionLink
deriving DecidableEq

/-- The zero-width range `Range.create(Position.create(0, 0), Position.create(0, 0))`
built at every `LocationLink.create` call site of `goToDefinition.ts`. -/
def zeroRange : Range :=
  Range.create (Position.create 0 0) (Position.create 0 0)

/-- Transcription of `getCreateStmts` (goToDefinition.ts, lines 52–70): for each statement, read
`stmt?.stmt?.CreateStmt?.relation?.schemaname` and `...relname`; if either is
`undefined` the statement contributes nothing, otherwise one candidate named
`` `${schemaname}.${relname}` `` with a zero-range location link.  Under the
typed AST (`src/unnamed/part_001`) `relname` is present whenever `CreateStmt`
is, so the `relname === undefined` branch of the guard reduces away. -/
def getCreateStmts (stmts : List Statement) (resource : Resource) : List Candidate :=
  stmts.flatMap fun stmt =>
    match stmt.stmt.CreateStmt with
    | none => []
    | some createStmt =>
      match createStmt.relation.schemaname with
      | none => []
      | some schemaname =>
        [{ definition := schemaname ++ "." ++ createStmt.relation.relname
           definitionLink := LocationLink.create resource
             (Range.create (Position.create 0 0) (Position.create 0 0))
             (Range.create (Position.create 0 0) (Position.create 0 0)) }]

/-- Transcription of `getCompositeTypeStmts` (goToDefinition.ts, lines 72–89): for each
statement, read `stmt?.stmt?.CompositeTypeStmt?.typevar?.relname`; if present
the statement contributes one candidate under that bare name (the typevar's
`schemaname` is never consulted). -/
def getCompositeTypeStmts (stmts : List Statement) (resource : Resource) : List Candidate :=
  stmts.flatMap fun stmt =>
    match stmt.stmt.CompositeTypeStmt with
    | none => []
    | some compositeTypeStmt =>
      [{ definition := compositeTypeStmt.typevar.relname
         definitionLink := LocationLink.create resource
           (Range.create (Position.create 0 0) (Position.create 0 0))
           (Range.create (Position.create 0 0) (Position.create 0 0)) }]

/-- Transcription of `getCreateFunctionStmts` (goToDefinition.ts, lines 91–115): for each
statement with a non-empty `funcname` list, one candidate per name component
`funcname?.String?.str`.  The source's `space` parameter is unused by the
function body and is omitted. -/
def getCreateFunctionStmts (stmts : List Statement) (resource : Resource) : List Candidate :=
  stmts.flatMap fun stmt =>
    match stmt.stmt.CreateFunctionStmt with
    | none => []
    | some createFunctionStmt =>
      if createFunctionStmt.funcname.length = 0 then []
      else
        createFunctionStmt.funcname.flatMap fun funcname =>
          [{ definition := funcname.String.str
             definitionLink := LocationLink.create resource
               (Range.create (Position.create 0 0) (Position.create 0 0))
               (Range.create (Position.create 0 0) (Position.create 0 0)) }]

/-- The combined candidate list built in `updateFileDefinition`
(goToDefinition.ts, lines 44–46):
`getCreateStmts(...).concat(getCompositeTypeStmts(...)).concat(getCreateFunctionStmts(...))`. -/
def fileCandidates (stmts : List Statement) (resource : Resource) : List Candidate :=
  getCreateStmts stmts resource
    ++ getCompositeTypeStmts stmts resource
    ++ getCreateFunctionStmts stmts resource

/-! ## Trigger and index extraction

The statement kinds `CreateTrigStmt` and `IndexStmt` are declared in
`src/unnamed/part_001` but their extractor is not among the given source
files; it is modelled from §4.2 of the specification.
-/

/-- Modelled from the spec: the trigger-creation extractor of the Statement
Extractor is not under `src/` (only the AST shape `CreateTrigStmt` in
`src/unnamed/part_001` is).  Per §4.2, trigger creation yields one Declaration
using the bare name only (`trigname`); no schema is attributed. -/
def getCreateTrigStmts (stmts : List Statement) (resource : Resource) : List Candidate :=
  stmts.flatMap fun stmt =>
    match stmt.stmt.CreateTrigStmt with
    | none => []
    | some createTrigStmt =>
      [{ definition := createTrigStmt.trigname
         definitionLink := LocationLink.create resource zeroRange zeroRange }]

/-- Modelled from the spec: the index-creation extractor of the Statement
Extractor is not under `src/` (only the AST shape `IndexStmt` in
`src/unnamed/part_001` is).  Per §4.2, index creation yields one Declaration
using the bare name only (`idxname`); no schema is attributed. -/
def getIndexStmts (stmts : List Statement) (resource : Resource) : List Candidate :=
  stmts.flatMap fun stmt =>
    match stmt.stmt.IndexStmt with
    | none => []
    | some indexStmt =>
      [{ definition := indexStmt.idxname
         definitionLink := LocationLink.create resource zeroRange zeroRange }]

/-! ## Workspace Definitions Index -/

/-- Modelled from the spec: the `DefinitionMap` class (`space.definitionMap`)
used by `goToDefinition.ts` is not under `src/`.  Per §3/§4.3 it is, logically,
the union of File Entries: an association from source-file identity to the
list of Candidates last extracted from it, kept in file-processing order. -/
structure DefinitionMap where
  entries : List (Resource × List Candidate)
deriving DecidableEq

/-- Modelled from the spec: `replace`/`updateCandidates` (§4.3) — atomically
discards the file's previous Candidates and installs the new list; last write
wins; a file not yet present gains a fresh File Entry at the end, preserving
file-processing order. -/
def DefinitionMap.updateCandidates (m : DefinitionMap) (resource : Resource)
    (candidates : List Candidate) : DefinitionMap :=
  if m.entries.any (fun e => e.1 = resource) then
    ⟨m.entries.map fun e => if e.1 = resource then (resource, candidates) else e⟩
  else
    ⟨m.entries ++ [(resource, candidates)]⟩

/-- Modelled from the spec: `lookup` (§4.3) — all stored Candidates across all
File Entries whose stored name equals the name form under exact string
comparison, in file-processing order; the empty list if none. -/
def DefinitionMap.lookup (m : DefinitionMap) (nameForm : String) : List Candidate :=
  m.entries.flatMap fun e => e.2.filter fun c => c.definition = nameForm

/-- Modelled from the spec: `DefinitionMap.getDefinitionLinks(word)` — the
lookup used by the resolve loop; `undefined` (`none`) when the name form has
no match, otherwise the full location list of the matches. -/
def DefinitionMap.getDefinitionLinks (m : DefinitionMap) (nameForm : String) :
    Option (List DefinitionLink) :=
  let links := (m.lookup nameForm).map fun c => c.definitionLink
  if links.isEmpty then none else some links

/-- Modelled from the spec: `hasFile` (§4.3) — existence probe for a File Entry. -/
def DefinitionMap.hasFile (m : DefinitionMap) (resource : Resource) : Bool :=
  m.entries.any fun e => e.1 = resource

/-! ## Identifier Candidate Generator

`sanitizeWordCandidates` and `separateSchemaFromCandidate` (imported by the
hover service in `src/unnamed/part_002` from `utilities/sanitizeWord` and
`utilities/schema`) are not under `src/`; they are modelled from §4.1.
-/

/-- Lower-casing of a token, written over the character list so that it
evaluates by kernel reduction (the library `String.toLower` recurses on byte
positions and does not). -/
def lowerString (s : String) : String :=
  String.mk (s.data.map Char.toLower)

/-- Splitting a token at the `.` separators, written over the character list
for the same reason. -/
def splitOnDot (s : String) : List String :=
  (s.data.splitOn '.').map String.mk

/-- Modelled from the spec: quoting detection of §4.1 — strip a single level
of double-quoting if present (the quoted inner text, case preserved), `none`
for an unquoted token. -/
def dequote (s : String) : Option String :=
  match s.data with
  | [] => none
  | c :: rest =>
    if c = '\"' ∧ rest ≠ [] ∧ rest.getLast? = some '\"' then
      some (String.mk rest.dropLast)
    else
      none

/-- Modelled from the spec: the per-part normalized forms of §4.1 — a quoted
part is tried verbatim only (quoting suppresses case-folding); an unquoted
part is tried as written and, when different, additionally lower-cased. -/
def partForms (s : String) : List String :=
  match dequote s with
  | some inner => [inner]
  | none => if lowerString s = s then [s] else [s, lowerString s]

/-- Modelled from the spec: `sanitizeWordCandidates` (imported by
`src/unnamed/part_002` from `utilities/sanitizeWord`; body not under `src/`).
Per §4.1: an empty token yields the empty sequence; a token without a `.`
separator yields its part forms; a `schema.name` token yields the pairwise
combinations of the two parts' forms; a token with more than one separator is
malformed and yields the empty sequence.  The result is ordered
most-likely-intended first and duplicate-free by construction. -/
def sanitizeWordCandidates (word : String) : List String :=
  if word.data.isEmpty then []
  else
    match splitOnDot word with
    | [single] => partForms single
    | [schemaPart, namePart] =>
      (partForms schemaPart).flatMap fun schemaForm =>
        (partForms namePart).map fun nameForm => schemaForm ++ "." ++ nameForm
    | _ => []

/-- Transcription of the `SchemaCandidate` shape (schema, candidate) from `utilities/schema`. -/
structure SchemaCandidate where
  schema : Option String
  candidate : String
deriving DecidableEq

/-- Modelled from the spec: `separateSchemaFromCandidate` (imported by
`src/unnamed/part_002` from `utilities/schema`; body not under `src/`).  Per
§4.1: a token with a `.` separator splits into (schema-part, name-part); a
token without a separator has an absent schema-part; anything else is
malformed and yields no resolution. -/
def separateSchemaFromCandidate (wordCandidate : String) : Option SchemaCandidate :=
  match splitOnDot wordCandidate with
  | [candidate] => some { schema := none, candidate }
  | [schema, candidate] => some { schema := some schema, candidate }
  | _ => none

/-- Modelled from the spec: the full candidate-form sequence tried by the
resolve operation (§4.1 with §4.4): each sanitized word candidate contributes,
in order, its own form and — when it carries no explicit schema — the
configured default schema as an implicit qualifier; malformed candidates
contribute nothing. -/
def generateCandidateForms (defaultSchema : String) (word : String) : List String :=
  (sanitizeWordCandidates word).flatMap fun candidate =>
    match separateSchemaFromCandidate candidate with
    | none => []
    | some sc =>
      match sc.schema with
      | none => [sc.candidate, defaultSchema ++ "." ++ sc.candidate]
      | some schema => [schema ++ "." ++ sc.candidate]

/-- Modelled from the spec: the resolve operation of the Definitions Manager
(§4.4; the manager invoked through `space.definitionMap.getDefinitionLinks` in
`goToDefinition.ts` and through `getDefinitionLinks` of `services/definition`
in `src/unnamed/part_000` is not under `src/`): try each candidate form
against the index in generator order and return the first non-empty match's
full location list; `none` when every form misses. -/
def resolveDefinitionLinks (m : DefinitionMap) (defaultSchema : String)
    (cursorToken : String) : Option (List DefinitionLink) :=
  (generateCandidateForms defaultSchema cursorToken).findSome? fun form =>
    m.getDefinitionLinks form

/-! ## Workspace loading (src/server/src/workspace/goToDefinition.ts)

File reading and the external parser are I/O collaborators; they are modelled
as an environment.  `readFileSync` + `parseQuery` + the `query?.["stmts"]`
access of `updateFileDefinition` have three observable outcomes per file:
the parser throws (`throws`), the parsed object has no `stmts` field
(`noStmts`), or a statement list is produced (`stmts`).
-/

/-- Outcome of `parseQuery(readFileSync(resource).toString())?.["stmts"]`
for one file. -/
inductive ParseOutcome where
  | throws (message : String)
  | noStmts
  | stmts (l : List Statement)
deriving DecidableEq

/-- The I/O collaborators of `loadDefinitionInWorkspace`: glob expansion of a
file pattern and the per-resource read/parse outcome. -/
structure Env where
  glob : String → List String
  fs : Resource → ParseOutcome

/-- Transcription of `interface LanguageServerSettings` as consumed by the embedded code:
`definitionFiles` (goToDefinition.ts) and `defaultSchema` (part_000). -/
structure LanguageServerSettings where
  definitionFiles : Option (List String)
  defaultSchema : String
deriving DecidableEq

/-- A workspace folder; only its `uri` is read by the embedded code. -/
structure WorkspaceFolder where
  uri : String
  name : String
deriving DecidableEq

/-- Transcription of `updateFileDefinition` (goToDefinition.ts, lines 37–50): read and parse the
file — a parser exception propagates to the caller (`Except.error`); when the
parsed object has no `stmts` the function returns without touching the index;
otherwise the file's candidates are extracted and installed via
`definitionMap.updateCandidates`. -/
def updateFileDefinition (env : Env) (m : DefinitionMap) (resource : Resource) :
    Except String DefinitionMap :=
  match env.fs resource with
  | .throws message => .error message
  | .noStmts => .ok m
  | .stmts stmts => .ok (m.updateCandidates resource (fileCandidates stmts resource))

/-- The `Promise.all(files.map(async (file) => ... updateFileDefinition ...))`
step of `loadDefinitionInWorkspace` for one file pattern: every file task is
started and runs to completion independently (a rejection of one task does not
cancel the others, so their index updates still happen); the combined promise
carries the first error, if any, which the caller catches.  Modelled
sequentially in list order. -/
def processPatternFiles (env : Env) (workspaceUri : String) (files : List String)
    (m : DefinitionMap) : DefinitionMap × Option String :=
  files.foldl
    (fun acc file =>
      let resource := workspaceUri ++ "/" ++ file
      match updateFileDefinition env acc.1 resource with
      | .ok m2 => (m2, acc.2)
      | .error e => (acc.1, acc.2.orElse fun _ => some e))
    (m, none)

/-- Transcription of `loadDefinitionInWorkspace` (goToDefinition.ts, lines 12–35): when the
resource has no workspace folder, return unchanged; otherwise, for each
configured definition-file pattern, expand the glob and update every matched
file, catching (logging and discarding) the pattern's error and continuing
with the next pattern.  Settings and workspace lookup are inputs here; the
source obtains them from `space`. -/
def loadDefinitionInWorkspace (env : Env) (settings : LanguageServerSettings)
    (workspace : Option WorkspaceFolder) (m : DefinitionMap) : DefinitionMap :=
  match workspace with
  | none => m
  | some w =>
    match settings.definitionFiles with
    | none => m
    | some filePatterns =>
      filePatterns.foldl
        (fun acc filePattern =>
          (processPatternFiles env w.uri (env.glob filePattern) acc).1)
        m

/-! ## Per-file update at the Manager boundary -/

/-- Transcription of `getStmtements` (src/unnamed/part_001, lines 113–120): parse the query
text; a parser exception is caught and turned into `undefined`, and a parse
result without a `stmts` field is also `undefined`.  The parser itself is an
external collaborator, passed in as `parse`. -/
def getStmtements (parse : String → Except String (Option (List Statement)))
    (query : String) : Option (List Statement) :=
  match parse query with
  | .error _ => none
  | .ok stmts => stmts

/-- Modelled from the spec: `DefinitionsManager.updateFileDefinitions` — the
per-file update operation invoked by `Handlers.onDidSave`
(src/unnamed/part_000, lines 106–138) whose body is not under `src/`.  Per
§4.4/§7, it re-parses the file's current content through `getStmtements`
(src/unnamed/part_001); when the text is not parseable it returns the explicit
"not parseable" signal (`none`) and retains the file's previous Declarations;
otherwise it replaces the file's Declarations and returns the new Candidate
list.  The `defaultSchema` argument is the setting forwarded by the caller. -/
def updateFileDefinitions (parse : String → Except String (Option (List Statement)))
    (m : DefinitionMap) (uri : Resource) (content : String)
    (defaultSchema : String) : DefinitionMap × Option (List Candidate) :=
  match getStmtements parse content with
  | none => (m, none)
  | some stmts =>
    let candidates := fileCandidates stmts uri
    (m.updateCandidates uri candidates, some candidates)

/-! ## Hover service (src/unnamed/part_002)

The database pool and the four metadata queries are external collaborators;
they are modelled as an environment whose query functions take the separated
schema, the default schema and the object name, returning the definition rows
(modelled by their identifying strings), together with the
`makeXDefinitionText` row-to-text rendering.
-/

/-- Transcription of `MarkupKind` of the protocol library (only `markdown` is used). -/
inductive MarkupKind where
  | markdown
  | plaintext
deriving DecidableEq

structure MarkupContent where
  kind : MarkupKind
  value : String
deriving DecidableEq

structure Hover where
  contents : MarkupContent
deriving DecidableEq

/-- Modelled from the spec: `makePostgresCodeMarkdown` from `utilities/text`
is not under `src/`; the hover's output format is unconstrained by the claims
and it is modelled as wrapping the code in a postgres markdown code block. -/
def makePostgresCodeMarkdown (code : String) : String :=
  "```postgres\n" ++ code ++ "\n```"

/-- The database collaborators of the hover service: the four definition
queries (schema, default schema, object name → definition rows) and the four
row renderers. -/
structure QueryEnv where
  queryTableDefinitions : Option String → String → String → List String
  makeTableDefinitionText : String → String
  queryViewDefinitions : Option String → String → String → List String
  makeViewDefinitionText : String → String
  queryFunctionDefinitions : Option String → String → String → List String
  makeFunctionDefinitionText : String → String
  queryTypeDefinitions : Option String → String → String → List String
  makeTypeDefinitionText : String → String

/-- Transcription of `makeHover` (src/unnamed/part_002, lines 160–175): `undefined` when there
are no definition texts, otherwise a markdown hover whose code joins the texts
with blank lines. -/
def makeHover (definitionTexts : List String) : Option Hover :=
  if definitionTexts.length = 0 then none
  else
    some { contents :=
      { kind := MarkupKind.markdown
        value := makePostgresCodeMarkdown (String.intercalate "\n\n" definitionTexts) } }

/-- Transcription of `getTableHover` (src/unnamed/part_002, lines 88–104). -/
def getTableHover (env : QueryEnv) (schema : Option String) (tableName : String)
    (defaultSchema : String) : Option Hover :=
  makeHover ((env.queryTableDefinitions schema defaultSchema tableName).map
    env.makeTableDefinitionText)

/-- Transcription of `getViewHover` (src/unnamed/part_002, lines 106–122). -/
def getViewHover (env : QueryEnv) (schema : Option String) (tableName : String)
    (defaultSchema : String) : Option Hover :=
  makeHover ((env.queryViewDefinitions schema defaultSchema tableName).map
    env.makeViewDefinitionText)

/-- Transcription of `getFunctionHover` (src/unnamed/part_002, lines 124–140). -/
def getFunctionHover (env : QueryEnv) (schema : Option String) (functionName : String)
    (defaultSchema : String) : Option Hover :=
  makeHover ((env.queryFunctionDefinitions schema defaultSchema functionName).map
    env.makeFunctionDefinitionText)

/-- Transcription of `getTypeHover` (src/unnamed/part_002, lines 142–158). -/
def getTypeHover (env : QueryEnv) (schema : Option String) (typeName : String)
    (defaultSchema : String) : Option Hover :=
  makeHover ((env.queryTypeDefinitions schema defaultSchema typeName).map
    env.makeTypeDefinitionText)

/-- The body of `getHover`'s candidate loop (src/unnamed/part_002, lines
45–83) for one sanitized word candidate: a candidate whose schema separation
fails is skipped; otherwise the checks run as Table, then View, then
Function, then Type, and the first defined hover is returned. -/
def candidateHover (env : QueryEnv) (defaultSchema : String)
    (wordCandidate : String) : Option Hover :=
  match separateSchemaFromCandidate wordCandidate with
  | none => none
  | some sc =>
    match getTableHover env sc.schema sc.candidate defaultSchema with
    | some tableHover => some tableHover
    | none =>
      match getViewHover env sc.schema sc.candidate defaultSchema with
      | some viewHover => some viewHover
      | none =>
        match getFunctionHover env sc.schema sc.candidate defaultSchema with
        | some functionHover => some functionHover
        | none => getTypeHover env sc.schema sc.candidate defaultSchema

/-- The `for (const wordCandidate of sanitizedWordCandidates)` loop of
`getHover`: the first candidate producing a hover wins; `undefined` after the
loop ends. -/
def getHoverLoop (env : QueryEnv) (defaultSchema : String) :
    List String → Option Hover
  | [] => none
  | wordCandidate :: rest =>
    match candidateHover env defaultSchema wordCandidate with
    | some hover => some hover
    | none => getHoverLoop env defaultSchema rest

/-- Transcription of `getHover` (src/unnamed/part_002, lines 30–86) from the point where the
word under the cursor has been resolved (lines 37–41 return `undefined` when
the position has no word range; `word` here is the resolved word text). -/
def getHover (env : QueryEnv) (word : String) (defaultSchema : String) :
    Option Hover :=
  getHoverLoop env defaultSchema (sanitizeWordCandidates word)

/-! ## Protocol handlers (src/unnamed/part_000) -/

/-- A diagnostic; its content is irrelevant to the claims. -/
structure Diagnostic where
  message : String
deriving DecidableEq

/-- The mutable server-side state reachable from `Handlers`: the per-document
settings store of the `SettingsManager`, the last diagnostics published per
document, and the `DefinitionsManager`'s Workspace Definitions Index. -/
structure ServerState where
  settings : List (String × LanguageServerSettings)
  diagnostics : List (String × List Diagnostic)
  definitionsManager : DefinitionMap
deriving DecidableEq

/-- Model of `connection.sendDiagnostics`: record the published
diagnostics for the document. -/
def sendDiagnostics (store : List (String × List Diagnostic)) (uri : String)
    (diagnostics : List Diagnostic) : List (String × List Diagnostic) :=
  (uri, diagnostics) :: store.filter fun e => e.1 ≠ uri

/-- Modelled from the spec: `SettingsManager.delete(uri)` (the manager class
is not under `src/`) — remove the document's cached settings entry. -/
def settingsDelete (store : List (String × LanguageServerSettings)) (uri : String) :
    List (String × LanguageServerSettings) :=
  store.filter fun e => e.1 ≠ uri

/-- Transcription of `Handlers.onDidClose` (src/unnamed/part_000, lines 69–77): delete the
document's settings entry and publish an empty diagnostics list; nothing else
is touched. -/
def onDidClose (st : ServerState) (uri : String) : ServerState :=
  { st with
    settings := settingsDelete st.settings uri
    diagnostics := sendDiagnostics st.diagnostics uri [] }

/-! ## Statement constructors and reference semantics used by the theorems -/

/-- A statement item with no recognized statement kind set. -/
def emptyStatementItem : StatementItem :=
  { CreateStmt := none, ViewStmt := none, CompositeTypeStmt := none,
    CreateFunctionStmt := none, CreateTrigStmt := none, IndexStmt := none }

/-- Wrap a statement item into a top-level statement. -/
def mkStatement (item : StatementItem) : Statement :=
  { stmt := item, stmt_location := none, stmt_len := 0 }

/-- A statement whose only recognized kind is a table creation. -/
def mkCreateTableStatement (relation : CreateStmtRelation) : Statement :=
  mkStatement { emptyStatementItem with CreateStmt := some { relation } }

/-- A statement whose only recognized kind is a view creation. -/
def mkViewStatement (view : ViewStmtRelation) : Statement :=
  mkStatement { emptyStatementItem with ViewStmt := some { view } }

/-- A statement whose only recognized kind is a composite-type creation. -/
def mkCompositeTypeStatement (typevar : CompositeTypeStmtTypevar) : Statement :=
  mkStatement { emptyStatementItem with CompositeTypeStmt := some { typevar } }

/-- A statement whose only recognized kind is a function/procedure creation. -/
def mkFunctionStatement (createFunctionStmt : CreateFunctionStmt) : Statement :=
  mkStatement { emptyStatementItem with CreateFunctionStmt := some createFunctionStmt }

/-- A statement whose only recognized kind is a trigger creation. -/
def mkTriggerStatement (createTrigStmt : CreateTrigStmt) : Statement :=
  mkStatement { emptyStatementItem with CreateTrigStmt := some createTrigStmt }

/-- A statement whose only recognized kind is an index creation. -/
def mkIndexStatement (indexStmt : IndexStmt) : Statement :=
  mkStatement { emptyStatementItem with IndexStmt := some indexStmt }

/-- Reference semantics of workspace loading with per-file failure isolation,
following the spec's words (§4.4/§7): every matched file whose content parses
has its extracted Candidates installed, in processing order; a file that fails
to read or parse (or has no statement list) contributes nothing and aborts
nothing.  Claim C4 compares `loadDefinitionInWorkspace` against this.
`installFileStep` is the per-file step: install the file's Candidates when its
content parses, leave the index alone otherwise. -/
def installFileStep (env : Env) (workspaceUri : String) (acc : DefinitionMap)
    (file : String) : DefinitionMap :=
  let resource := workspaceUri ++ "/" ++ file
  match env.fs resource with
  | .stmts stmts => acc.updateCandidates resource (fileCandidates stmts resource)
  | _ => acc

/-- The pattern-level fold of the reference semantics; see `installFileStep`. -/
def installParsedFiles (env : Env) (workspaceUri : String)
    (filePatterns : List String) (m : DefinitionMap) : DefinitionMap :=
  filePatterns.foldl
    (fun acc filePattern => (env.glob filePattern).foldl (installFileStep env workspaceUri) acc)
    m

/-- All definition texts one sanitized word candidate can yield through the
hover checks (spec-side characterization used to state C10): none when the
schema separation fails, otherwise the table, view, function and type
definition texts together. -/
def candidateDefinitionTexts (env : QueryEnv) (defaultSchema : String)
    (wordCandidate : String) : List String :=
  match separateSchemaFromCandidate wordCandidate with
  | none => []
  | some sc =>
    (env.queryTableDefinitions sc.schema defaultSchema sc.candidate).map
        env.makeTableDefinitionText ++
      (env.queryViewDefinitions sc.schema defaultSchema sc.candidate).map
        env.makeViewDefinitionText ++
      (env.queryFunctionDefinitions sc.schema defaultSchema sc.candidate).map
        env.makeFunctionDefinitionText ++
      (env.queryTypeDefinitions sc.schema defaultSchema sc.candidate).map
        env.makeTypeDefinitionText

/-- Reference semantics of one hover candidate, following the spec's words:
the hover of the first check (table, then view, then function, then type)
that yields at least one definition text, `none` when every check yields
nothing or the schema separation fails.  Claim C10 compares `candidateHover`
against this. -/
def firstKindHover (env : QueryEnv) (defaultSchema : String)
    (wordCandidate : String) : Option Hover :=
  match separateSchemaFromCandidate wordCandidate with
  | none => none
  | some sc =>
    let tableTexts := (env.queryTableDefinitions sc.schema defaultSchema sc.candidate).map
      env.makeTableDefinitionText
    let viewTexts := (env.queryViewDefinitions sc.schema defaultSchema sc.candidate).map
      env.makeViewDefinitionText
    let functionTexts := (env.queryFunctionDefinitions sc.schema defaultSchema sc.candidate).map
      env.makeFunctionDefinitionText
    let typeTexts := (env.queryTypeDefinitions sc.schema defaultSchema sc.candidate).map
      env.makeTypeDefinitionText
    if tableTexts ≠ [] then makeHover tableTexts
    else if viewTexts ≠ [] then makeHover viewTexts
    else if functionTexts ≠ [] then makeHover functionTexts
    else if typeTexts ≠ [] then makeHover typeTexts
    else none

/-- A concrete index fixture: one file declaring `public.users`. -/
def sampleDefinitionMap : DefinitionMap :=
  ⟨[("file:///tables.sql",
     [{ definition := "public.users"
        definitionLink := LocationLink.create "file:///tables.sql" zeroRange zeroRange }])]⟩

/-- A concrete database fixture: exactly one table definition, `public.users`. -/
def sampleQueryEnv : QueryEnv :=
  { queryTableDefinitions := fun _ _ tableName =>
      if tableName = "users" then ["users definition"] else []
    makeTableDefinitionText := fun row => row
    queryViewDefinitions := fun _ _ _ => []
    makeViewDefinitionText := fun row => row
    queryFunctionDefinitions := fun _ _ _ => []
    makeFunctionDefinitionText := fun row => row
    queryTypeDefinitions := fun _ _ _ => []
    makeTypeDefinitionText := fun row => row }

/-! ## Helper lemmas -/

/-- Lemma: `findSome?` tried on a decomposed list: when every element before `a`
misses and `a` is reached, the first hit decides the result. -/
theorem findSome_of_prefix_misses {α β : Type} (f : α → Option β) :
    ∀ (pre : List α) (a : α) (post : List α),
      (∀ b ∈ pre, f b = none) →
      (pre ++ a :: post).findSome? f =
        match f a with
        | some v => some v
        | none => post.findSome? f := by
  intro pre
  induction pre with
  | nil =>
    intro a post _
    rfl
  | cons hd tl ih =>
    intro a post hmiss
    have hhd : f hd = none := hmiss hd (List.mem_cons_self hd tl)
    have htl : ∀ b ∈ tl, f b = none := fun b hb => hmiss b (List.mem_cons_of_mem hd hb)
    simpa [List.findSome?_cons, hhd] using ih a post htl

/-- The hover candidate loop is `findSome?` over `candidateHover`. -/
theorem getHoverLoop_eq_findSome (env : QueryEnv) (defaultSchema : String) :
    ∀ candidates : List String,
      getHoverLoop env defaultSchema candidates =
        candidates.findSome? (candidateHover env defaultSchema) := by
  intro candidates
  induction candidates with
  | nil => rfl
  | cons c rest ih =>
    cases hc : candidateHover env defaultSchema c with
    | none => simp [getHoverLoop, List.findSome?_cons, hc, ih]
    | some hover => simp [getHoverLoop, List.findSome?_cons, hc]

/-- Lemma: `getDefinitionLinks` misses exactly on the name forms with no stored match. -/
theorem getDefinitionLinks_eq_none_iff (m : DefinitionMap) (nameForm : String) :
    m.getDefinitionLinks nameForm = none ↔ m.lookup nameForm = [] := by
  simp only [DefinitionMap.getDefinitionLinks]
  cases h : m.lookup nameForm with
  | nil => simp
  | cons c rest => simp

/-! ## Claim C1 -/

/-- Claim C1: for every definition request, the resolve operation obtains the
ordered candidate-form sequence of the Identifier Candidate Generator from the
cursor token, looks each form up against the index in generator order, and
returns the location list of the first form with a non-empty match, never
merging matches of different candidate forms.  Formally: whenever the
generated sequence splits as `pre ++ form :: post` with every form of `pre`
missing, a hit at `form` makes the resolve result exactly that single form's
location list; when every generated form misses, the resolve result is `none`;
and a form misses exactly when its index lookup is empty. -/
theorem resolveDefinitionLinks_first_form_wins (m : DefinitionMap)
    (defaultSchema cursorToken : String) (pre : List String) (form : String)
    (post : List String)
    (hsplit : generateCandidateForms defaultSchema cursorToken = pre ++ form :: post)
    (hpre : ∀ earlier ∈ pre, m.getDefinitionLinks earlier = none) :
    (m.getDefinitionLinks form ≠ none →
      resolveDefinitionLinks m defaultSchema cursorToken = m.getDefinitionLinks form) ∧
    ((∀ f ∈ generateCandidateForms defaultSchema cursorToken,
        m.getDefinitionLinks f = none) →
      resolveDefinitionLinks m defaultSchema cursorToken = none) ∧
    (∀ f, m.getDefinitionLinks f = none ↔ m.lookup f = []) := by
  refine ⟨?_, ?_, fun f => getDefinitionLinks_eq_none_iff m f⟩
  · intro hhit
    rw [resolveDefinitionLinks, hsplit,
      findSome_of_prefix_misses (fun f => m.getDefinitionLinks f) pre form post hpre]
    cases hform : m.getDefinitionLinks form with
    | none => exact absurd hform hhit
    | some links => rfl
  · intro hall
    rw [resolveDefinitionLinks]
    exact List.findSome?_eq_none_iff.mpr fun f hf => hall f hf

/-- Witness for C1 at a concrete index and cursor token (also the spec's §8
schema-fallback scenario): with one declaration stored for `public.users` and
the bare cursor token `users`, the generator tries `users` then
`public.users`, and resolve returns exactly the stored location list. -/
theorem resolveDefinitionLinks_first_form_wins_witness :
    resolveDefinitionLinks sampleDefinitionMap "public" "users" =
      sampleDefinitionMap.getDefinitionLinks "public.users" :=
  (resolveDefinitionLinks_first_form_wins sampleDefinitionMap "public" "users"
    ["users"] "public.users" [] (by decide) (by decide)).1 (by decide)

/-! ## Claim C2 -/

/-- Claim C2 counterexample: the claim fails on the code in three ways, each
at a concrete input.  A table creation without a declared schema yields no
Declaration at all (the claim demands one under the bare relation name); a
view creation yields no Declaration at all through the combined extraction; a
composite-type creation with a declared schema `app` is stored under the bare
name `point`, not under the declared schema. -/
theorem createStmts_counterexample :
    getCreateStmts
        [mkCreateTableStatement { schemaname := none, relname := "users", location := 0 }]
        "file:///tables.sql" = [] ∧
    ([] : List Candidate).length ≠ 1 ∧
    fileCandidates
        [mkViewStatement { schemaname := some "public", relname := "items", location := 0 }]
        "file:///views.sql" = [] ∧
    (getCompositeTypeStmts
        [mkCompositeTypeStatement
          { schemaname := some "app", relname := "point", relpersistence := "p", location := 0 }]
        "file:///types.sql").map Candidate.definition = ["point"] ∧
    (["point"] : List String) ≠ ["app.point"] := by
  refine ⟨rfl, by decide, rfl, rfl, by decide⟩

/-- Claim C2 (amended): a table-creation statement yields exactly one
Declaration named `schema.relname` when its declared schema is present, and no
Declaration when the schema is absent (absent-schema table creations are not
indexed); a view-creation statement yields no Declaration; a composite-type
creation yields exactly one Declaration under the bare type name, ignoring any
declared schema. -/
theorem createStmts_declarations (relation : CreateStmtRelation)
    (typevar : CompositeTypeStmtTypevar) (view : ViewStmtRelation)
    (rest : List Statement) (resource : Resource) :
    getCreateStmts (mkCreateTableStatement relation :: rest) resource =
      (match relation.schemaname with
       | some schemaname =>
         [{ definition := schemaname ++ "." ++ relation.relname
            definitionLink := LocationLink.create resource zeroRange zeroRange }]
       | none => []) ++ getCreateStmts rest resource ∧
    getCompositeTypeStmts (mkCompositeTypeStatement typevar :: rest) resource =
      { definition := typevar.relname
        definitionLink := LocationLink.create resource zeroRange zeroRange } ::
        getCompositeTypeStmts rest resource ∧
    fileCandidates (mkViewStatement view :: rest) resource =
      fileCandidates rest resource := by
  refine ⟨?_, ?_, ?_⟩
  · cases h : relation.schemaname with
    | none =>
      simp [getCreateStmts, mkCreateTableStatement, mkStatement, emptyStatementItem, h]
    | some schemaname =>
      simp [getCreateStmts, mkCreateTableStatement, mkStatement, emptyStatementItem, h,
        zeroRange, Range.create, Position.create]
  · simp [getCompositeTypeStmts, mkCompositeTypeStatement, mkStatement, emptyStatementItem,
      zeroRange, Range.create, Position.create]
  · simp [fileCandidates, getCreateStmts, getCompositeTypeStmts, getCreateFunctionStmts,
      mkViewStatement, mkStatement, emptyStatementItem]

/-! ## Claim C3 -/

/-- Claim C3: each trigger-creation and each index-creation statement yields
exactly one Declaration stored under its bare name (`trigname` / `idxname`)
with no schema attributed.  The extractors are modelled from the spec (§4.2),
the AST shapes being declared in src/unnamed/part_001. -/
theorem triggerIndex_bare_declarations (createTrigStmt : CreateTrigStmt)
    (indexStmt : IndexStmt) (rest : List Statement) (resource : Resource) :
    getCreateTrigStmts (mkTriggerStatement createTrigStmt :: rest) resource =
      { definition := createTrigStmt.trigname
        definitionLink := LocationLink.create resource zeroRange zeroRange } ::
        getCreateTrigStmts rest resource ∧
    getIndexStmts (mkIndexStatement indexStmt :: rest) resource =
      { definition := indexStmt.idxname
        definitionLink := LocationLink.create resource zeroRange zeroRange } ::
        getIndexStmts rest resource := by
  constructor
  · simp [getCreateTrigStmts, mkTriggerStatement, mkStatement, emptyStatementItem]
  · simp [getIndexStmts, mkIndexStatement, mkStatement, emptyStatementItem]

/-! ## Claim C4 -/

/-- The index component of one pattern's `Promise.all` step ignores the error
accumulator: a file that throws contributes nothing, every other file is
processed regardless. -/
theorem processPatternFiles_fst (env : Env) (workspaceUri : String) :
    ∀ (files : List String) (m : DefinitionMap) (err : Option String),
      (files.foldl
        (fun acc file =>
          let resource := workspaceUri ++ "/" ++ file
          match updateFileDefinition env acc.1 resource with
          | .ok m2 => (m2, acc.2)
          | .error e => (acc.1, acc.2.orElse fun _ => some e))
        (m, err)).1 =
      files.foldl (installFileStep env workspaceUri) m := by
  intro files
  induction files with
  | nil => intro m err; rfl
  | cons file rest ih =>
    intro m err
    simp only [List.foldl_cons]
    cases h : env.fs (workspaceUri ++ "/" ++ file) with
    | throws message => simpa [updateFileDefinition, installFileStep, h] using ih m _
    | noStmts => simpa [updateFileDefinition, installFileStep, h] using ih m err
    | stmts stmts => simpa [updateFileDefinition, installFileStep, h] using ih _ err

/-- Lemma: `loadDefinitionInWorkspace` equals the per-file-isolated reference
semantics `installParsedFiles`. -/
theorem loadDefinition_eq_installParsedFiles (env : Env)
    (settings : LanguageServerSettings) (w : WorkspaceFolder) (m : DefinitionMap)
    (filePatterns : List String)
    (hdf : settings.definitionFiles = some filePatterns) :
    loadDefinitionInWorkspace env settings (some w) m =
      installParsedFiles env w.uri filePatterns m := by
  simp only [loadDefinitionInWorkspace, hdf, installParsedFiles]
  clear hdf
  induction filePatterns generalizing m with
  | nil => rfl
  | cons filePattern rest ih =>
    simp only [List.foldl_cons]
    rw [processPatternFiles, processPatternFiles_fst]
    exact ih _

/-- Claim C4: during workspace loading, an error reading or parsing one
matched file is caught and does not prevent the remaining matched files from
being read, parsed, and having their Declarations installed.  Formally, the
load (whose error handling is the per-pattern try/catch around `Promise.all`,
each file task running to completion independently) equals the reference
semantics in which every matched file whose content parses has its Candidates
installed and every failing file is an isolated no-op; in particular no
error escapes the load (its result type carries no error). -/
theorem loadDefinition_partial_failure (env : Env)
    (settings : LanguageServerSettings) (w : WorkspaceFolder) (m : DefinitionMap) :
    loadDefinitionInWorkspace env settings (some w) m =
      (match settings.definitionFiles with
       | none => m
       | some filePatterns => installParsedFiles env w.uri filePatterns m) := by
  cases hdf : settings.definitionFiles with
  | none => simp [loadDefinitionInWorkspace, hdf]
  | some filePatterns =>
    simpa using loadDefinition_eq_installParsedFiles env settings w m filePatterns hdf

/-! ## Claim C5 -/

/-- Claim C5: for a file whose current text fails to parse (the parser throws,
caught inside `getStmtements`, or the parse result has no statement list), the
per-file update operation leaves the whole index — in particular that file's
previously installed Declarations — unchanged and returns the explicit "not
parseable" signal (`none`); being a total function, it lets no exception past
the manager boundary. -/
theorem updateFileDefinitions_not_parseable
    (parse : String → Except String (Option (List Statement)))
    (m : DefinitionMap) (uri : Resource) (content : String) (defaultSchema : String)
    (h : getStmtements parse content = none) :
    updateFileDefinitions parse m uri content defaultSchema = (m, none) := by
  simp [updateFileDefinitions, h]

/-- Witness for C5: a parser that throws on the given content leaves a
one-file index unchanged and signals "not parseable". -/
theorem updateFileDefinitions_not_parseable_witness :
    updateFileDefinitions (fun _ => Except.error "syntax error at or near TABL")
        sampleDefinitionMap "file:///tables.sql" "CREATE TABL public.users ()" "public" =
      (sampleDefinitionMap, none) :=
  updateFileDefinitions_not_parseable _ sampleDefinitionMap "file:///tables.sql"
    "CREATE TABL public.users ()" "public" rfl

/-! ## Claim C6 -/

/-- Claim C6: a function- or procedure-creation statement yields one
Declaration per component of its (possibly multi-part) name list, and each
component — in particular a bare function name `f` — is resolvable in the
index under exactly that component string. -/
theorem createFunction_per_name_component (createFunctionStmt : CreateFunctionStmt)
    (rest : List Statement) (resource : Resource) (fn : FuncName)
    (hfn : fn ∈ createFunctionStmt.funcname) :
    getCreateFunctionStmts (mkFunctionStatement createFunctionStmt :: rest) resource =
      createFunctionStmt.funcname.map (fun component =>
        { definition := component.String.str
          definitionLink := LocationLink.create resource zeroRange zeroRange }) ++
        getCreateFunctionStmts rest resource ∧
    (DefinitionMap.updateCandidates ⟨[]⟩ resource
        (fileCandidates [mkFunctionStatement createFunctionStmt] resource)).getDefinitionLinks
      fn.String.str ≠ none := by
  have hmap : ∀ stmts : List Statement,
      getCreateFunctionStmts (mkFunctionStatement createFunctionStmt :: stmts) resource =
        createFunctionStmt.funcname.map (fun component =>
          { definition := component.String.str
            definitionLink := LocationLink.create resource zeroRange zeroRange }) ++
          getCreateFunctionStmts stmts resource := by
    intro stmts
    simp only [getCreateFunctionStmts, List.flatMap_cons, mkFunctionStatement, mkStatement,
      emptyStatementItem]
    cases hnames : createFunctionStmt.funcname with
    | nil => simp
    | cons hd tl => simp [hnames, List.map_eq_flatMap, zeroRange]
  refine ⟨hmap rest, ?_⟩
  have hcands : fileCandidates [mkFunctionStatement createFunctionStmt] resource =
      createFunctionStmt.funcname.map (fun component =>
        { definition := component.String.str
          definitionLink := LocationLink.create resource zeroRange zeroRange }) := by
    have h1 : getCreateStmts [mkFunctionStatement createFunctionStmt] resource = [] := by
      simp [getCreateStmts, mkFunctionStatement, mkStatement, emptyStatementItem]
    have h2 : getCompositeTypeStmts [mkFunctionStatement createFunctionStmt] resource = [] := by
      simp [getCompositeTypeStmts, mkFunctionStatement, mkStatement, emptyStatementItem]
    have h3 := hmap []
    simp only [fileCandidates, h1, h2, List.nil_append]
    simpa [getCreateFunctionStmts] using h3
  set cand : Candidate :=
    { definition := fn.String.str
      definitionLink := LocationLink.create resource zeroRange zeroRange } with hcand
  have hmem : cand ∈ (fileCandidates [mkFunctionStatement createFunctionStmt] resource).filter
      (fun c => c.definition = fn.String.str) := by
    rw [hcands]
    refine List.mem_filter.mpr ⟨List.mem_map_of_mem _ hfn, by simp [hcand]⟩
  have hupdate : DefinitionMap.updateCandidates ⟨[]⟩ resource
      (fileCandidates [mkFunctionStatement createFunctionStmt] resource) =
      ⟨[(resource, fileCandidates [mkFunctionStatement createFunctionStmt] resource)]⟩ := by
    simp [DefinitionMap.updateCandidates]
  rw [hupdate]
  simp only [DefinitionMap.getDefinitionLinks, DefinitionMap.lookup, List.flatMap_cons,
    List.flatMap_nil, List.append_nil]
  cases hfilter : (fileCandidates [mkFunctionStatement createFunctionStmt]
      resource).filter (fun c => c.definition = fn.String.str) with
  | nil =>
    rw [hfilter] at hmem
    exact absurd hmem (List.not_mem_nil cand)
  | cons c cs => simp

/-- Witness for C6: `CREATE FUNCTION public.f ...` declares the two-component
name list `[public, f]`; the `f` component makes the function resolvable by
the bare name `f`. -/
theorem createFunction_per_name_component_witness :
    (DefinitionMap.updateCandidates ⟨[]⟩ "file:///functions.sql"
        (fileCandidates
          [mkFunctionStatement
            { is_procedure := none, replace := false
              funcname := [{ String := { str := "public" } }, { String := { str := "f" } }]
              returnType := { location := 0 } }]
          "file:///functions.sql")).getDefinitionLinks "f" ≠ none :=
  (createFunction_per_name_component
    { is_procedure := none, replace := false
      funcname := [{ String := { str := "public" } }, { String := { str := "f" } }]
      returnType := { location := 0 } }
    [] "file:///functions.sql" { String := { str := "f" } } (by decide)).2

/-! ## Claim C7 -/

/-- Claim C7: statement extraction is total — each extraction function is a
total Lean function on arbitrary statement lists (the source reaches every
field through optional-chaining, so no shape can make it throw) — and a
statement that carries none of the extraction-recognized kinds
(`CreateStmt`, `CompositeTypeStmt`, `CreateFunctionStmt`), whatever its other
fields hold, contributes zero Declarations to every extraction function and to
the combined extraction. -/
theorem extraction_skips_unrecognized (s : Statement) (rest : List Statement)
    (resource : Resource)
    (hCreate : s.stmt.CreateStmt = none)
    (hComposite : s.stmt.CompositeTypeStmt = none)
    (hFunction : s.stmt.CreateFunctionStmt = none) :
    fileCandidates (s :: rest) resource = fileCandidates rest resource ∧
    getCreateStmts (s :: rest) resource = getCreateStmts rest resource ∧
    getCompositeTypeStmts (s :: rest) resource = getCompositeTypeStmts rest resource ∧
    getCreateFunctionStmts (s :: rest) resource = getCreateFunctionStmts rest resource := by
  have h1 : getCreateStmts (s :: rest) resource = getCreateStmts rest resource := by
    simp [getCreateStmts, hCreate]
  have h2 : getCompositeTypeStmts (s :: rest) resource =
      getCompositeTypeStmts rest resource := by
    simp [getCompositeTypeStmts, hComposite]
  have h3 : getCreateFunctionStmts (s :: rest) resource =
      getCreateFunctionStmts rest resource := by
    simp [getCreateFunctionStmts, hFunction]
  exact ⟨by simp [fileCandidates, h1, h2, h3], h1, h2, h3⟩

/-- Witness for C7: an index-creation statement (a kind the three extraction
functions do not recognize) contributes zero Declarations. -/
theorem extraction_skips_unrecognized_witness :
    fileCandidates [mkIndexStatement { idxname := "users_idx" }] "file:///indexes.sql" =
      fileCandidates [] "file:///indexes.sql" ∧
    getCreateStmts [mkIndexStatement { idxname := "users_idx" }] "file:///indexes.sql" =
      getCreateStmts [] "file:///indexes.sql" ∧
    getCompositeTypeStmts [mkIndexStatement { idxname := "users_idx" }] "file:///indexes.sql" =
      getCompositeTypeStmts [] "file:///indexes.sql" ∧
    getCreateFunctionStmts [mkIndexStatement { idxname := "users_idx" }] "file:///indexes.sql" =
      getCreateFunctionStmts [] "file:///indexes.sql" :=
  extraction_skips_unrecognized (mkIndexStatement { idxname := "users_idx" }) []
    "file:///indexes.sql" rfl rfl rfl

/-! ## Claim C8 -/

/-- Replacing a file's candidates never changes any entry's key. -/
theorem any_key_map_replace (entries : List (Resource × List Candidate))
    (resource probe : Resource) (candidates : List Candidate) :
    ((entries.map fun e => if e.1 = resource then (resource, candidates) else e).any
      fun e => e.1 = probe) =
    entries.any fun e => e.1 = probe := by
  induction entries with
  | nil => rfl
  | cons hd tl ih =>
    by_cases h : hd.1 = resource
    · simp [h, ih]
    · simp [h, ih]

/-- Lemma: `updateCandidates` preserves all existing File Entries and adds at most
the updated file's own entry. -/
theorem hasFile_updateCandidates (m : DefinitionMap) (resource : Resource)
    (candidates : List Candidate) (probe : Resource) :
    (m.updateCandidates resource candidates).hasFile probe =
      (m.hasFile probe || decide (probe = resource)) := by
  simp only [DefinitionMap.updateCandidates, DefinitionMap.hasFile]
  by_cases hany : m.entries.any fun e => e.1 = resource
  · rw [if_pos hany]
    rw [any_key_map_replace]
    by_cases hprobe : probe = resource
    · subst hprobe
      simp [hany]
    · simp [hprobe]
  · rw [if_neg hany]
    by_cases hprobe : probe = resource
    · subst hprobe
      simp
    · simp [hprobe, Ne.symm hprobe]

/-- Existing File Entries survive `updateCandidates`. -/
theorem hasFile_le_updateCandidates (m : DefinitionMap) (resource : Resource)
    (candidates : List Candidate) (probe : Resource) :
    m.hasFile probe ≤ (m.updateCandidates resource candidates).hasFile probe := by
  rw [hasFile_updateCandidates]
  cases m.hasFile probe <;> simp

/-- Existing File Entries survive every per-file install step of a load. -/
theorem hasFile_le_foldl_installFileStep (env : Env) (workspaceUri : String)
    (probe : Resource) :
    ∀ (files : List String) (m : DefinitionMap),
      m.hasFile probe ≤ (files.foldl (installFileStep env workspaceUri) m).hasFile probe := by
  intro files
  induction files with
  | nil => intro m; exact le_refl _
  | cons file rest ih =>
    intro m
    rw [List.foldl_cons]
    refine le_trans ?_ (ih (installFileStep env workspaceUri m file))
    simp only [installFileStep]
    cases env.fs (workspaceUri ++ "/" ++ file) with
    | throws message => exact le_refl _
    | noStmts => exact le_refl _
    | stmts stmts => exact hasFile_le_updateCandidates m _ _ probe

/-- Existing File Entries survive the whole reference load. -/
theorem hasFile_le_installParsedFiles (env : Env) (workspaceUri : String)
    (probe : Resource) :
    ∀ (filePatterns : List String) (m : DefinitionMap),
      m.hasFile probe ≤ (installParsedFiles env workspaceUri filePatterns m).hasFile probe := by
  intro filePatterns
  induction filePatterns with
  | nil => intro m; exact le_refl _
  | cons filePattern rest ih =>
    intro m
    simp only [installParsedFiles, List.foldl_cons]
    exact le_trans
      (hasFile_le_foldl_installFileStep env workspaceUri probe (env.glob filePattern) m)
      (ih _)

/-- Claim C8: closing a document leaves the Workspace Definitions Index
unchanged — the close handler rewrites only the per-document settings store
and the published diagnostics — and no modelled index operation removes a File
Entry: replacing a file's candidates preserves every existing entry (adding at
most the written file's own), and a workspace load only ever adds entries, so
an entry can disappear only through the (unmodelled) exclusion of its file by
a definition-file glob pattern during a reload. -/
theorem onDidClose_leaves_index_unchanged (st : ServerState) (uri : String)
    (m : DefinitionMap) (resource : Resource) (candidates : List Candidate)
    (probe : Resource) (env : Env) (settings : LanguageServerSettings)
    (workspace : Option WorkspaceFolder) :
    onDidClose st uri =
      { settings := settingsDelete st.settings uri
        diagnostics := sendDiagnostics st.diagnostics uri []
        definitionsManager := st.definitionsManager } ∧
    (onDidClose st uri).definitionsManager = st.definitionsManager ∧
    (m.updateCandidates resource candidates).hasFile probe =
      (m.hasFile probe || decide (probe = resource)) ∧
    m.hasFile probe ≤ (loadDefinitionInWorkspace env settings workspace m).hasFile probe := by
  refine ⟨rfl, rfl, hasFile_updateCandidates m resource candidates probe, ?_⟩
  cases workspace with
  | none => exact le_refl _
  | some w =>
    cases hdf : settings.definitionFiles with
    | none =>
      simp only [loadDefinitionInWorkspace, hdf]
      exact le_refl _
    | some filePatterns =>
      rw [loadDefinition_eq_installParsedFiles env settings w m filePatterns hdf]
      exact hasFile_le_installParsedFiles env w.uri probe filePatterns m

/-! ## Claim C9 -/

/-- Claim C9 counterexample: the single Declaration extracted from a concrete
function-creation statement carries `originSelectionRange = none` (the source
passes only three arguments to `LocationLink.create`, leaving the optional
origin span absent), not the zero-width range at line 0, character 0 that the
claim asserts. -/
theorem originSelectionRange_is_absent :
    ((getCreateFunctionStmts
        [mkFunctionStatement
          { is_procedure := none, replace := false
            funcname := [{ String := { str := "f" } }]
            returnType := { location := 0 } }]
        "file:///functions.sql").map Candidate.definitionLink).map
      LocationLink.originSelectionRange = [none] ∧
    ([none] : List (Option Range)) ≠ [some zeroRange] := by
  refine ⟨rfl, by decide⟩

/-- Claim C9 (amended): every Declaration produced by the extraction functions
carries a definition link whose target range and target selection range are
the zero-width range at line 0, character 0 of the owning file, regardless of
where the statement appears in the source text; its origin span is absent
(`none`), not a range. -/
theorem extraction_links_are_zero_range (stmts : List Statement)
    (resource : Resource) (c : Candidate)
    (h : c ∈ fileCandidates stmts resource) :
    c.definitionLink =
      { targetUri := resource
        targetRange := zeroRange
        targetSelectionRange := zeroRange
        originSelectionRange := none } := by
  have hgoal : c.definitionLink = LocationLink.create resource zeroRange zeroRange := by
    rcases List.mem_append.mp h with h12 | h3
    · rcases List.mem_append.mp h12 with h1 | h2
      · rcases List.mem_flatMap.mp h1 with ⟨s, _, hcs⟩
        rcases h1' : s.stmt.CreateStmt with _ | createStmt
        · simp [h1'] at hcs
        · simp only [h1'] at hcs
          rcases h2' : createStmt.relation.schemaname with _ | schemaname
          · simp [h2'] at hcs
          · simp only [h2'] at hcs
            simp only [List.mem_singleton] at hcs
            rw [hcs]
            rfl
      · rcases List.mem_flatMap.mp h2 with ⟨s, _, hcs⟩
        rcases h1' : s.stmt.CompositeTypeStmt with _ | compositeTypeStmt
        · simp [h1'] at hcs
        · simp only [h1'] at hcs
          simp only [List.mem_singleton] at hcs
          rw [hcs]
          rfl
    · rcases List.mem_flatMap.mp h3 with ⟨s, _, hcs⟩
      rcases h1' : s.stmt.CreateFunctionStmt with _ | createFunctionStmt
      · simp [h1'] at hcs
      · simp only [h1'] at hcs
        by_cases hlen : createFunctionStmt.funcname.length = 0
        · simp [hlen] at hcs
        · simp only [hlen, if_false] at hcs
          rcases List.mem_flatMap.mp hcs with ⟨fn, _, hcfn⟩
          simp only [List.mem_singleton] at hcfn
          rw [hcfn]
          rfl
  exact hgoal

/-- Witness for C9 (amended) at a concrete table-creation statement. -/
theorem extraction_links_are_zero_range_witness :
    (Candidate.mk "public.users"
        (LocationLink.create "file:///tables.sql" zeroRange zeroRange)).definitionLink =
      { targetUri := "file:///tables.sql"
        targetRange := zeroRange
        targetSelectionRange := zeroRange
        originSelectionRange := none } :=
  extraction_links_are_zero_range
    [mkCreateTableStatement { schemaname := some "public", relname := "users", location := 0 }]
    "file:///tables.sql"
    (Candidate.mk "public.users" (LocationLink.create "file:///tables.sql" zeroRange zeroRange))
    (by decide)

/-! ## Claim C10 -/

/-- Lemma: `makeHover` returns `undefined` exactly when there are no definition texts. -/
theorem makeHover_eq_none_iff (definitionTexts : List String) :
    makeHover definitionTexts = none ↔ definitionTexts = [] := by
  cases definitionTexts <;> simp [makeHover]

/-- The early-return pattern over `makeHover` is the "first check with at
least one definition text" rule. -/
theorem makeHover_match_eq_ite (definitionTexts : List String) (next : Option Hover) :
    (match makeHover definitionTexts with
     | some hover => some hover
     | none => next) =
    if definitionTexts ≠ [] then makeHover definitionTexts else next := by
  cases definitionTexts <;> simp [makeHover]

/-- The body of the hover candidate loop implements the table → view →
function → type priority over non-empty definition-text lists. -/
theorem candidateHover_eq_firstKindHover (env : QueryEnv) (defaultSchema : String)
    (wordCandidate : String) :
    candidateHover env defaultSchema wordCandidate =
      firstKindHover env defaultSchema wordCandidate := by
  simp only [candidateHover, firstKindHover, getTableHover, getViewHover, getFunctionHover,
    getTypeHover]
  cases hsc : separateSchemaFromCandidate wordCandidate with
  | none => rfl
  | some sc =>
    simp only [makeHover_match_eq_ite]
    cases hty : (env.queryTypeDefinitions sc.schema defaultSchema sc.candidate).map
        env.makeTypeDefinitionText <;>
      simp [makeHover]

/-- A hover candidate yields no hover exactly when none of its four checks
yields a definition text. -/
theorem candidateHover_eq_none_iff (env : QueryEnv) (defaultSchema : String)
    (wordCandidate : String) :
    candidateHover env defaultSchema wordCandidate = none ↔
      candidateDefinitionTexts env defaultSchema wordCandidate = [] := by
  rw [candidateHover_eq_firstKindHover]
  simp only [firstKindHover, candidateDefinitionTexts]
  cases hsc : separateSchemaFromCandidate wordCandidate with
  | none => simp
  | some sc =>
    by_cases ht : (env.queryTableDefinitions sc.schema defaultSchema sc.candidate).map
        env.makeTableDefinitionText = []
    · by_cases hv : (env.queryViewDefinitions sc.schema defaultSchema sc.candidate).map
          env.makeViewDefinitionText = []
      · by_cases hf : (env.queryFunctionDefinitions sc.schema defaultSchema sc.candidate).map
            env.makeFunctionDefinitionText = []
        · by_cases hty : (env.queryTypeDefinitions sc.schema defaultSchema sc.candidate).map
              env.makeTypeDefinitionText = []
          · simp [ht, hv, hf, hty]
          · simp [ht, hv, hf, hty, makeHover_eq_none_iff]
        · simp [ht, hv, hf, makeHover_eq_none_iff]
      · simp [ht, hv, makeHover_eq_none_iff]
    · simp [ht, makeHover_eq_none_iff]

/-- Claim C10: for every hover request with a resolvable word range, `getHover`
tries each sanitized word candidate in order — when the candidate sequence
splits as `pre ++ c :: post` with every candidate of `pre` yielding nothing, a
yielding `c` decides the hover; it returns `undefined` exactly when no
candidate yields any definition; and within one candidate the checks run as
table, then view, then function, then type, the first check with at least one
definition text deciding the hover. -/
theorem getHover_first_yield_wins (env : QueryEnv) (word defaultSchema : String)
    (pre : List String) (c : String) (post : List String)
    (hsplit : sanitizeWordCandidates word = pre ++ c :: post)
    (hpre : ∀ b ∈ pre, candidateHover env defaultSchema b = none) :
    (candidateHover env defaultSchema c ≠ none →
      getHover env word defaultSchema = candidateHover env defaultSchema c) ∧
    (getHover env word defaultSchema = none ↔
      ∀ cand ∈ sanitizeWordCandidates word,
        candidateDefinitionTexts env defaultSchema cand = []) ∧
    (∀ cand, candidateHover env defaultSchema cand =
      firstKindHover env defaultSchema cand) := by
  refine ⟨?_, ?_, fun cand => candidateHover_eq_firstKindHover env defaultSchema cand⟩
  · intro hhit
    rw [getHover, getHoverLoop_eq_findSome, hsplit,
      findSome_of_prefix_misses (candidateHover env defaultSchema) pre c post hpre]
    cases hc : candidateHover env defaultSchema c with
    | none => exact absurd hc hhit
    | some hover => rfl
  · rw [getHover, getHoverLoop_eq_findSome, List.findSome?_eq_none_iff]
    constructor
    · intro hall cand hcand
      exact (candidateHover_eq_none_iff env defaultSchema cand).mp (hall cand hcand)
    · intro hall cand hcand
      exact (candidateHover_eq_none_iff env defaultSchema cand).mpr (hall cand hcand)

/-- Witness for C10: against a database with exactly one table definition for
`users`, the cursor word `users` (a single sanitized candidate) makes the
hover equal that candidate's hover. -/
theorem getHover_first_yield_wins_witness :
    getHover sampleQueryEnv "users" "public" =
      candidateHover sampleQueryEnv "public" "users" :=
  (getHover_first_yield_wins sampleQueryEnv "users" "public" [] "users" []
    (by decide) (by decide)).1 (by decide)

end PlpgsqlLsp
